import Mathlib

/-!
Verification of the rule-based core of an insurance query backend
(`ClauseMaster` clause parsing / relevance matching / eligibility
evaluation, and the regex fallback entity extraction of the LLM service).

The Python code is shallowly embedded:
* strings are `String` / `List Char`; `str.lower` is ASCII lowering;
* the concrete `re` patterns used by the code are modeled by
  deterministic leftmost-match scanners (for these particular patterns,
  greedy matching never needs backtracking, so the deterministic
  scanners agree with Python's semantics);
* Python float scores are modeled as exact rationals (`ℚ`);
* dict fields are `Option`-valued; the `condition` field distinguishes
  "key absent" from "key present with value None" because
  `query_entities.get("condition", "")` treats the two differently;
* exceptions (`AttributeError` from `None.lower()`, `ValueError` from
  `int(...)`) are modeled with `Except`.
-/

/-- Python `\s` character class (ASCII). -/
def isPyWS (c : Char) : Bool :=
  c == ' ' || c == '\t' || c == '\n' || c == '\r' || c == '\x0b' || c == '\x0c'

/-- Character class `[\s-]` used by the fallback extraction patterns. -/
def isSpDash (c : Char) : Bool := isPyWS c || c == '-'

/-- Python `\w` word character (ASCII), used for `\b` word boundaries. -/
def isWordChar (c : Char) : Bool := c.isAlphanum || c == '_'

/-- Numeric value of a digit run, as captured by `(\d+)` and `int(...)`. -/
def digitsToNat (ds : List Char) : Nat :=
  ds.foldl (fun n c => 10 * n + (c.toNat - 48)) 0

/-- Model of Python `str.lower()` (ASCII inputs). -/
def pyLower (s : String) : String := String.mk (s.data.map Char.toLower)

/-- Model of Python `str.strip()`. -/
def pyStrip (s : String) : String :=
  String.mk (((s.data.dropWhile isPyWS).reverse.dropWhile isPyWS).reverse)

/-- Accumulating word scanner for `str.split()`: `cur` holds the current
word in reverse; whitespace ends a word, empty runs produce no word. -/
def pyWordsAux (cur : List Char) : List Char → List String
  | [] => if cur.isEmpty then [] else [String.mk cur.reverse]
  | c :: rest =>
    if isPyWS c then
      if cur.isEmpty then pyWordsAux [] rest
      else String.mk cur.reverse :: pyWordsAux [] rest
    else pyWordsAux (c :: cur) rest

/-- Model of Python `str.split()` (split on whitespace runs, no empties). -/
def pySplit (s : String) : List String := pyWordsAux [] s.data

/-- Model of Python `int(s)` for strings: optional surrounding whitespace,
optional sign, one or more digits; `none` models `ValueError`. -/
def pyInt (s : String) : Option Int :=
  let cs := ((s.data.dropWhile isPyWS).reverse.dropWhile isPyWS).reverse
  match cs with
  | '-' :: ds =>
    if ds.isEmpty then none
    else if ds.all Char.isDigit then some (-(digitsToNat ds : Int)) else none
  | '+' :: ds =>
    if ds.isEmpty then none
    else if ds.all Char.isDigit then some ((digitsToNat ds : Int)) else none
  | ds =>
    if ds.isEmpty then none
    else if ds.all Char.isDigit then some ((digitsToNat ds : Int)) else none

/-- Case-insensitive literal match: strip a lowercase literal from the
front of the text, comparing case-insensitively (`re.IGNORECASE`). -/
def stripLitCI : List Char → List Char → Option (List Char)
  | [], cs => some cs
  | _ :: _, [] => none
  | l :: ls, c :: cs => if c.toLower = l then stripLitCI ls cs else none

/-- Whether a lowercase literal matches case-insensitively at the front. -/
def isLitCI (n : List Char) (cs : List Char) : Bool := (stripLitCI n cs).isSome

/-- Optional single character (`s?` in the patterns), case-insensitive.
For the patterns in this code, consuming the character greedily is
equivalent to Python's backtracking behaviour. -/
def optCharCI (t : Char) : List Char → List Char
  | [] => []
  | c :: cs => if c.toLower = t then cs else c :: cs

/-- Ordered alternation `(?:a|b|...)` of lowercase literals: first
alternative that matches wins (Python tries alternatives left to right). -/
def firstAlt : List (List Char) → List Char → Option (List Char)
  | [], _ => none
  | a :: more, cs =>
    match stripLitCI a cs with
    | some r => some r
    | none => firstAlt more cs

/-- Leftmost-match scan of `re.search`: try the position matcher at every
position, left to right. -/
def scanL {β : Type} (m : List Char → Option β) : List Char → Option β
  | [] => none
  | c :: rest =>
    match m (c :: rest) with
    | some b => some b
    | none => scanL m rest

/-- Substring test (Python's `in` on strings), exact characters. -/
def hasSubL (n : List Char) : List Char → Bool
  | [] => n.isEmpty
  | c :: t => n.isPrefixOf (c :: t) || hasSubL n t

/-- Substring test on `String`s: `needle in haystack`. -/
def hasSubS (needle haystack : String) : Bool := hasSubL needle.data haystack.data

/-- Case-insensitive substring test (`needle.lower() in haystack.lower()`
for a lowercase needle). -/
def hasSubCI (n : List Char) : List Char → Bool
  | [] => n.isEmpty
  | c :: t => isLitCI n (c :: t) || hasSubCI n t

/-- `(l.dropWhile p).length ≤ l.length`. -/
theorem length_dropWhile_le (p : Char → Bool) (l : List Char) :
    (l.dropWhile p).length ≤ l.length := by
  induction l with
  | nil => simp [List.dropWhile]
  | cons a l ih =>
    by_cases h : p a
    · simp only [List.dropWhile_cons, h, if_true, List.length_cons]
      omega
    · simp [List.dropWhile_cons, h]

/-- The `(?:,\d+)*` part of the coverage-amount pattern, entered after the
leading digit run: repeatedly consume a comma followed by at least one
digit, returning the captured digits (commas dropped, as the code later
does `.replace(",", "")`) and the rest of the text. Structural recursion
consuming one character at a time, so adjacent digits are gathered by the
first branch. -/
def commaGroups : List Char → List Char × List Char
  | [] => ([], [])
  | c :: rest =>
    if c.isDigit then
      let r := commaGroups rest
      (c :: r.1, r.2)
    else if c = ',' then
      match rest with
      | [] => ([], [c])
      | d :: rest2 =>
        if d.isDigit then
          let r := commaGroups rest2
          (d :: r.1, r.2)
        else ([], c :: d :: rest2)
    else ([], c :: rest)

/-- Position matcher for `(\d+)\s*(?:month|year)s?\s*waiting`. -/
def matchWait1At (cs : List Char) : Option Nat :=
  let ds := cs.takeWhile Char.isDigit
  if ds.isEmpty then none
  else
    let r1 := (cs.dropWhile Char.isDigit).dropWhile isPyWS
    match firstAlt ["month".data, "year".data] r1 with
    | none => none
    | some r2 =>
      let r4 := (optCharCI 's' r2).dropWhile isPyWS
      if isLitCI "waiting".data r4 then some (digitsToNat ds) else none

/-- Position matcher for `waiting\s*period\s*of\s*(\d+)\s*(?:month|year)s?`. -/
def matchWait2At (cs : List Char) : Option Nat :=
  match stripLitCI "waiting".data cs with
  | none => none
  | some r0 =>
    match stripLitCI "period".data (r0.dropWhile isPyWS) with
    | none => none
    | some r1 =>
      match stripLitCI "of".data (r1.dropWhile isPyWS) with
      | none => none
      | some r2 =>
        let r3 := r2.dropWhile isPyWS
        let ds := r3.takeWhile Char.isDigit
        if ds.isEmpty then none
        else
          let r4 := (r3.dropWhile Char.isDigit).dropWhile isPyWS
          if (firstAlt ["month".data, "year".data] r4).isSome then
            some (digitsToNat ds)
          else none

/-- `re.search` over both waiting-period patterns, first pattern first
(the code breaks at the first pattern that matches). -/
def searchWaiting (cs : List Char) : Option Nat :=
  match scanL matchWait1At cs with
  | some n => some n
  | none => scanL matchWait2At cs

/-- Position matcher for `(\d+(?:,\d+)*)\s*(?:lakh|lac|thousand|million)`. -/
def matchCov1At (cs : List Char) : Option Nat :=
  let ds := cs.takeWhile Char.isDigit
  if ds.isEmpty then none
  else
    let g := commaGroups (cs.dropWhile Char.isDigit)
    let r1 := g.2.dropWhile isPyWS
    if (firstAlt ["lakh".data, "lac".data, "thousand".data, "million".data] r1).isSome then
      some (digitsToNat (ds ++ g.1))
    else none

/-- Position matcher for `coverage\s*limit\s*(\d+(?:,\d+)*)`. -/
def matchCov2At (cs : List Char) : Option Nat :=
  match stripLitCI "coverage".data cs with
  | none => none
  | some r0 =>
    match stripLitCI "limit".data (r0.dropWhile isPyWS) with
    | none => none
    | some r1 =>
      let r2 := r1.dropWhile isPyWS
      let ds := r2.takeWhile Char.isDigit
      if ds.isEmpty then none
      else
        let g := commaGroups (r2.dropWhile Char.isDigit)
        some (digitsToNat (ds ++ g.1))

/-- `re.search` over both coverage-limit patterns, in order. -/
def searchCoverage (cs : List Char) : Option Nat :=
  match scanL matchCov1At cs with
  | some n => some n
  | none => scanL matchCov2At cs

/-- Position matcher for `exclusion[s]?\s*:\s*(.*?)(?=\n|$)`; the lazy
capture with the lookahead captures everything up to the next newline. -/
def matchExcl1At (cs : List Char) : Option (List Char) :=
  match stripLitCI "exclusion".data cs with
  | none => none
  | some r0 =>
    match (optCharCI 's' r0).dropWhile isPyWS with
    | ':' :: r1 => some ((r1.dropWhile isPyWS).takeWhile (fun c => c ≠ '\n'))
    | _ => none

/-- Position matcher for `not\s*covered\s*:\s*(.*?)(?=\n|$)`. -/
def matchExcl2At (cs : List Char) : Option (List Char) :=
  match stripLitCI "not".data cs with
  | none => none
  | some r0 =>
    match stripLitCI "covered".data (r0.dropWhile isPyWS) with
    | none => none
    | some r1 =>
      match r1.dropWhile isPyWS with
      | ':' :: r2 => some ((r2.dropWhile isPyWS).takeWhile (fun c => c ≠ '\n'))
      | _ => none

/-- Python `"...".split(",")` on the captured characters: split at every
comma; the empty string yields one empty part. -/
def splitOnComma : List Char → List (List Char)
  | [] => [[]]
  | c :: rest =>
    if c = ',' then [] :: splitOnComma rest
    else
      match splitOnComma rest with
      | h :: t => (c :: h) :: t
      | [] => [[c]]

/-- The captured exclusion text is split on commas and each part stripped
(`match.group(1).split(",")` then `ex.strip()`). -/
def splitCommaStrip (cap : List Char) : List String :=
  (splitOnComma cap).map (fun p => pyStrip (String.mk p))

/-- `re.search` over both exclusion patterns, in order. -/
def searchExclusions (cs : List Char) : Option (List String) :=
  match scanL matchExcl1At cs with
  | some cap => some (splitCommaStrip cap)
  | none =>
    match scanL matchExcl2At cs with
    | some cap => some (splitCommaStrip cap)
    | none => none

/-- Structured clause information (the dict built by
`ClauseMaster.extract_clause_info`; `conditions` is initialized and never
written by the code). -/
structure ClauseInfo where
  clause_type : String
  waiting_period : Option Nat
  coverage_limit : Option Nat
  exclusions : List String
  conditions : List String
deriving DecidableEq

/-- `ClauseMaster.extract_clause_info`: run the waiting-period, then
coverage-limit, then exclusion pattern families; within a family the first
matching pattern wins, and each matching family overwrites `clause_type`. -/
def extract_clause_info (clause_content : String) : ClauseInfo :=
  let cs := clause_content.data
  let info0 : ClauseInfo := ⟨"general", none, none, [], []⟩
  let info1 :=
    match searchWaiting cs with
    | some n => { info0 with waiting_period := some n, clause_type := "waiting_period" }
    | none => info0
  let info2 :=
    match searchCoverage cs with
    | some n => { info1 with coverage_limit := some n, clause_type := "coverage_limit" }
    | none => info1
  match searchExclusions cs with
  | some es => { info2 with exclusions := es, clause_type := "exclusion" }
  | none => info2

/-- A clause record as passed around by the code (a dict with these keys). -/
structure Clause where
  clause_id : String
  clause_title : String
  clause_content : String
  relevance_score : Option ℚ
deriving DecidableEq

/-- Fixed medical-term list of `match_clauses_to_query`. -/
def medicalTerms : List String := ["surgery", "knee", "hip", "heart", "cancer", "diabetes"]

/-- Fixed location list of `match_clauses_to_query`. -/
def locationTerms : List String := ["mumbai", "delhi", "pune", "bangalore", "chennai"]

/-- The relevance score computed inside the loop of
`match_clauses_to_query` for one clause (both strings already lowered):
word-set overlap ratio, then +0.3 per shared medical term and +0.2 per
shared location (substring tests on the whole lowered strings). -/
def clauseScore (query_lower clause_content_lower : String) : ℚ :=
  let query_words := (pySplit query_lower).dedup
  let clause_words := (pySplit clause_content_lower).dedup
  let common_words := query_words.filter (fun w => decide (w ∈ clause_words))
  let base : ℚ :=
    if common_words.isEmpty then 0
    else (common_words.length : ℚ) / (query_words.length : ℚ)
  let withMed := medicalTerms.foldl
    (fun sc t => if hasSubS t query_lower && hasSubS t clause_content_lower then sc + 3/10 else sc)
    base
  locationTerms.foldl
    (fun sc t => if hasSubS t query_lower && hasSubS t clause_content_lower then sc + 2/10 else sc)
    withMed

/-- The `matched_clauses` list built by the loop of
`match_clauses_to_query`, before sorting: keep a clause iff its score
exceeds 0.1, storing `min(score, 1.0)` into `relevance_score`. -/
def matchedBeforeSort (query : String) (clauses : List Clause) : List Clause :=
  let query_lower := pyLower query
  clauses.filterMap (fun c =>
    let sc := clauseScore query_lower (pyLower c.clause_content)
    if (1/10 : ℚ) < sc then some { c with relevance_score := some (min sc 1) } else none)

/-- Sort key `x.get("relevance_score", 0)`. -/
def sortKey (c : Clause) : ℚ := c.relevance_score.getD 0

/-- Stable descending insertion: the new element goes before the first
element whose key is not larger (it was earlier in the input). -/
def insDesc {α : Type} (key : α → ℚ) (c : α) : List α → List α
  | [] => [c]
  | x :: xs => if key x ≤ key c then c :: x :: xs else x :: insDesc key c xs

/-- Model of Python's stable `list.sort(key=..., reverse=True)`; a stable
descending sort is extensionally unique, and this insertion sort is proved
below to be descending and stable. -/
def sortDesc {α : Type} (key : α → ℚ) (l : List α) : List α :=
  l.foldr (insDesc key) []

/-- `ClauseMaster.match_clauses_to_query`. -/
def match_clauses_to_query (query : String) (clauses : List Clause) : List Clause :=
  sortDesc sortKey (matchedBeforeSort query clauses)

/-- Exceptions the evaluation code can raise: `AttributeError` from
`None.lower()` and `ValueError` from `int(...)`. -/
inductive PyError where
  | attributeError
  | valueError
deriving DecidableEq

/-- State of the `condition` key in the `query_entities` dict:
missing key, key present with value `None`, or key present with a string.
`query_entities.get("condition", "")` distinguishes all three. -/
inductive CondField where
  | absent
  | pynone
  | val (s : String)
deriving DecidableEq

/-- The `query_entities` dict as consumed by
`evaluate_coverage_eligibility` (for `age` and `policy_duration` a missing
key and a `None` value behave identically under `.get`, so both are
modeled by `none`). -/
structure QueryEntities where
  age : Option Int := none
  condition : CondField := .absent
  policy_duration : Option String := none
deriving DecidableEq

/-- The evaluation dict returned by `evaluate_coverage_eligibility`. -/
structure Evaluation where
  eligible : Bool
  decision : String
  amount : Option Nat
  justification : String
  waiting_period_info : String
  exclusions : List String
  confidence_score : ℚ
deriving DecidableEq

/-- The initial evaluation dict of `evaluate_coverage_eligibility`. -/
def emptyEvaluation : Evaluation := ⟨false, "rejected", none, "", "", [], 0⟩

/-- Age test: Python's `if age:` truthiness (0 is falsy) combined with
`age < 18 or age > 65`. -/
def ageOutside (a : Int) : Bool := (a != 0) && (decide (a < 18) || decide (65 < a))

/-- Justification string for the age rejection. -/
def ageJustification (a : Int) : String :=
  "Age " ++ toString a ++ " is outside the eligible range (18-65 years)"

/-- `query_entities.get("condition", "").lower()`: a present-but-`None`
condition raises `AttributeError`. -/
def getConditionLower : CondField → Except PyError String
  | .absent => .ok ""
  | .pynone => .error .attributeError
  | .val s => .ok (pyLower s)

/-- Surgery keyword list of the decision rules (`coverage_types.surgery`). -/
def surgeryKeywords : List String := ["knee", "hip", "heart", "brain", "spine"]

/-- Pre-existing-condition keyword list (`coverage_types.medical_conditions`). -/
def medicalConditionKeywords : List String := ["cancer", "diabetes", "hypertension"]

/-- Required waiting period in months for a (lowered) condition string:
12 for the surgery group, else 24 for the pre-existing group, else 3. -/
def requiredWaiting (condition : String) : Nat :=
  if surgeryKeywords.any (fun k => hasSubS k condition) then 12
  else if medicalConditionKeywords.any (fun k => hasSubS k condition) then 24
  else 3

/-- `waiting_period_info` string of the waiting-period rejection. -/
def waitingInfoText (m : Int) (w : Nat) (condition : String) : String :=
  "Policy is only " ++ toString m ++ " months old, but " ++ toString w ++
    " months waiting period is required for " ++ condition

/-- `justification` string of the waiting-period rejection. -/
def waitingJustText (m : Int) (w : Nat) : String :=
  "Waiting period not met. Required: " ++ toString w ++ " months, Current: " ++
    toString m ++ " months"

/-- The clause scan of `evaluate_coverage_eligibility`: accumulate the
maximum truthy coverage limit and extend the exclusion list (the local
`applicable_clauses` list is dropped: the code never reads it). -/
def scanClauses (clauses : List Clause) : Nat × List String :=
  clauses.foldl (fun acc c =>
    let info := extract_clause_info c.clause_content
    let acc1 :=
      match info.coverage_limit with
      | some v => if v != 0 then (max acc.1 v, acc.2) else acc
      | none => acc
    if info.exclusions.isEmpty then acc1 else (acc1.1, acc1.2 ++ info.exclusions))
    (0, [])

/-- Maximum coverage limit extracted across a clause list. -/
def maxCoverageOf (clauses : List Clause) : Nat := (scanClauses clauses).1

/-- Generic no-coverage justification string. -/
def noCoverageJust : String := "No applicable coverage clauses found for the query"

/-- Final coverage decision of `evaluate_coverage_eligibility`. -/
def coverageStep (condition : String) (clauses : List Clause) : Evaluation :=
  let acc := scanClauses clauses
  if 0 < acc.1 then
    ⟨true, "approved", some acc.1,
      "Coverage approved for " ++ condition ++ " with maximum amount of " ++ toString acc.1,
      "", acc.2, 8/10⟩
  else
    ⟨false, "rejected", none, noCoverageJust, "", acc.2, 3/10⟩

/-- Waiting-period check followed by the coverage step (`condition` is the
lowered condition string; the check runs only when both `policy_duration`
and `condition` are truthy). -/
def evalWaitingAndCoverage (condition : String) (pd : Option String)
    (clauses : List Clause) : Except PyError Evaluation :=
  match pd with
  | some d =>
    if (!d.isEmpty) && (!condition.isEmpty) then
      match pyInt d with
      | none => .error .valueError
      | some m =>
        let w := requiredWaiting condition
        if m < (w : Int) then
          .ok { emptyEvaluation with
                  waiting_period_info := waitingInfoText m w condition,
                  justification := waitingJustText m w }
        else .ok (coverageStep condition clauses)
    else .ok (coverageStep condition clauses)
  | none => .ok (coverageStep condition clauses)

/-- Steps of `evaluate_coverage_eligibility` after the age check. -/
def evalAfterAge (q : QueryEntities) (clauses : List Clause) : Except PyError Evaluation :=
  match getConditionLower q.condition with
  | .error e => .error e
  | .ok condition => evalWaitingAndCoverage condition q.policy_duration clauses

/-- `ClauseMaster.evaluate_coverage_eligibility`. -/
def evaluate_coverage_eligibility (q : QueryEntities) (clauses : List Clause) :
    Except PyError Evaluation :=
  match q.age with
  | some a =>
    if ageOutside a then .ok { emptyEvaluation with justification := ageJustification a }
    else evalAfterAge q clauses
  | none => evalAfterAge q clauses

/-- Whether the age check rejects the query. -/
def ageRejects (q : QueryEntities) : Bool :=
  match q.age with
  | some a => ageOutside a
  | none => false

/-- Whether the waiting-period check rejects the query (false when the
condition is absent or `None`, when either field is falsy, or when the
duration does not parse). -/
def waitingRejects (q : QueryEntities) : Bool :=
  match q.condition, q.policy_duration with
  | .val s, some d =>
    let c := pyLower s
    if (!d.isEmpty) && (!c.isEmpty) then
      match pyInt d with
      | some m => decide (m < (requiredWaiting c : Int))
      | none => false
    else false
  | _, _ => false

/-- The `ExtractedEntities` record (pydantic model): all fields optional. -/
structure ExtractedEntities where
  age : Option Int
  gender : Option String
  condition : Option String
  location : Option String
  policy_duration : Option String
  coverage_type : Option String
deriving DecidableEq

/-- Position matcher for the age pattern
`(\d+)[\s-]*(?:year|yr)s?[\s-]*old`. -/
def matchAgeAt (cs : List Char) : Option Nat :=
  let ds := cs.takeWhile Char.isDigit
  if ds.isEmpty then none
  else
    let r1 := (cs.dropWhile Char.isDigit).dropWhile isSpDash
    match firstAlt ["year".data, "yr".data] r1 with
    | none => none
    | some r2 =>
      let r4 := (optCharCI 's' r2).dropWhile isSpDash
      if isLitCI "old".data r4 then some (digitsToNat ds) else none

/-- Position matcher for the policy-duration pattern
`(\d+)[\s-]*(?:month|year|yr)s?[\s-]*(?:old|policy)`; the captured group
is kept as a string. -/
def matchDurationAt (cs : List Char) : Option String :=
  let ds := cs.takeWhile Char.isDigit
  if ds.isEmpty then none
  else
    let r1 := (cs.dropWhile Char.isDigit).dropWhile isSpDash
    match firstAlt ["month".data, "year".data, "yr".data] r1 with
    | none => none
    | some r2 =>
      let r4 := (optCharCI 's' r2).dropWhile isSpDash
      if (firstAlt ["old".data, "policy".data] r4).isSome then
        some (String.mk ds)
      else none

/-- Word-boundary `\b` before the match (all gender alternatives start
with a word character, so the boundary holds iff the preceding character
is absent or not a word character). -/
def boundaryBefore : Option Char → Bool
  | none => true
  | some c => !isWordChar c

/-- Word-boundary `\b` after the match. -/
def boundaryAfter : List Char → Bool
  | [] => true
  | c :: _ => !isWordChar c

/-- Gender word list of `\b(male|female|man|woman)\b`. -/
def genderWords : List String := ["male", "female", "man", "woman"]

/-- Position matcher for the gender pattern; returns the matched
alternative (the code lowercases the captured group). -/
def matchGenderAt (prev : Option Char) (cs : List Char) : Option String :=
  if boundaryBefore prev then
    genderWords.find? (fun w => isLitCI w.data cs && boundaryAfter (cs.drop w.data.length))
  else none

/-- Leftmost scan for the gender pattern, tracking the previous character
for the leading word boundary. -/
def scanGender : Option Char → List Char → Option String
  | _, [] => none
  | prev, c :: rest =>
    match matchGenderAt prev (c :: rest) with
    | some g => some g
    | none => scanGender (some c) rest

/-- Ordered medical keyword list of the fallback condition extraction. -/
def medicalKeywords : List String :=
  ["surgery", "operation", "knee", "hip", "heart", "cancer", "diabetes"]

/-- Location list of the fallback location extraction (stored with the
original capitalization). -/
def locationNames : List String :=
  ["Mumbai", "Delhi", "Pune", "Bangalore", "Chennai", "Kolkata"]

/-- `LLMService._fallback_entity_extraction`: independent regex/keyword
scans per field. -/
def fallback_entity_extraction (query : String) : ExtractedEntities :=
  let cs := query.data
  { age := (scanL matchAgeAt cs).map (fun n => (n : Int)),
    gender := scanGender none cs,
    condition := medicalKeywords.find? (fun k => hasSubCI k.data cs),
    location := locationNames.find? (fun l => hasSubCI (pyLower l).data cs),
    policy_duration := scanL matchDurationAt cs,
    coverage_type := none }

/-- `entities.dict()` as passed to `evaluate_coverage_eligibility` by
`_fallback_decision`: every key is present, so an unextracted condition
arrives as a present-but-`None` value. -/
def entitiesToDict (e : ExtractedEntities) : QueryEntities :=
  { age := e.age,
    condition := match e.condition with | none => .pynone | some s => .val s,
    policy_duration := e.policy_duration }

/-- Number of terms of a fixed list present (as substrings) in both
lowered strings; used by the specification-side score. -/
def specSharedCount (terms : List String) (ql cl : String) : Nat :=
  (terms.filter (fun t => hasSubS t ql && hasSubS t cl)).length

/-- Specification-side relevance score, written from the spec text: the
size of the case-folded word-set intersection divided by the query
word-set size (0 for an empty query, via rational division), plus 0.3 per
shared medical term and 0.2 per shared city. -/
def specClauseScore (query content : String) : ℚ :=
  let ql := pyLower query
  let cl := pyLower content
  let qset := (pySplit ql).toFinset
  let cset := (pySplit cl).toFinset
  ((qset ∩ cset).card : ℚ) / (qset.card : ℚ)
    + (3/10) * (specSharedCount medicalTerms ql cl : ℚ)
    + (2/10) * (specSharedCount locationTerms ql cl : ℚ)

/-- Specification-side matcher, written from the spec text: clamp the
final score to at most 1.0, keep exactly the clauses whose score is
strictly greater than 0.1, sort descending, stably. -/
def matchClausesSpec (query : String) (clauses : List Clause) : List Clause :=
  sortDesc sortKey
    ((clauses.filter
        (fun c => decide ((1/10 : ℚ) < min (specClauseScore query c.clause_content) 1))).map
      (fun c => { c with relevance_score := some (min (specClauseScore query c.clause_content) 1) }))

attribute [local semireducible] Rat.add Rat.mul Rat.inv Rat.sub

/-- Fixed query of the end-to-end test scenario. -/
def testQuery : String := "46-year-old male, knee surgery in Pune, 3-month-old insurance policy"

/-- Fixed clause content of the end-to-end test scenario (mock clause
`clause_5.1` of the system test). -/
def c8Text : String := "Knee surgery is covered under this policy with a maximum coverage of 500,000 rupees. Waiting period of 12 months applies for surgical procedures."

/-- A clause whose content yields coverage limit 5 via the `lakh` pattern. -/
def fiveLakhClause : Clause := ⟨"c1", "Coverage", "5 lakh", none⟩

/-- A substring of the tail is a substring of the whole. -/
theorem hasSubL_append_right (n t p : List Char) (h : hasSubL n t = true) :
    hasSubL n (p ++ t) = true := by
  induction p with
  | nil => simpa using h
  | cons c p ih => simp [hasSubL, ih]

/-- A lowercase literal strips from text beginning with itself. -/
theorem stripLitCI_self_append (lit r : List Char) (h : ∀ c ∈ lit, c.toLower = c) :
    stripLitCI lit (lit ++ r) = some r := by
  induction lit with
  | nil => rfl
  | cons a lit ih =>
    have ha : a.toLower = a := h a (by simp)
    simp [stripLitCI, ha]
    exact ih (fun c hc => h c (by simp [hc]))

/-- `takeWhile` over a satisfying run followed by a failing character. -/
theorem takeWhile_append_run (p : Char → Bool) (ds : List Char) (c : Char) (l : List Char)
    (hds : ∀ x ∈ ds, p x = true) (hc : p c = false) :
    (ds ++ c :: l).takeWhile p = ds := by
  induction ds with
  | nil => simp [List.takeWhile_cons, hc]
  | cons a ds ih =>
    have ha : p a = true := hds a (by simp)
    simp [List.takeWhile_cons, ha]
    exact ih (fun x hx => hds x (by simp [hx]))

/-- `dropWhile` over a satisfying run followed by a failing character. -/
theorem dropWhile_append_run (p : Char → Bool) (ds : List Char) (c : Char) (l : List Char)
    (hds : ∀ x ∈ ds, p x = true) (hc : p c = false) :
    (ds ++ c :: l).dropWhile p = c :: l := by
  induction ds with
  | nil => simp [List.dropWhile_cons, hc]
  | cons a ds ih =>
    have ha : p a = true := hds a (by simp)
    simp [List.dropWhile_cons, ha]
    exact ih (fun x hx => hds x (by simp [hx]))

/-- A bonus-adding fold equals the start plus the bonus times the number
of list entries passing the test. -/
theorem foldl_bonus (a : ℚ) (p : String → Bool) (l : List String) (init : ℚ) :
    l.foldl (fun sc t => if p t then sc + a else sc) init
      = init + a * ((l.filter p).length : ℚ) := by
  induction l generalizing init with
  | nil => simp
  | cons x l ih =>
    by_cases h : p x
    · simp only [List.foldl_cons, h, if_true, List.filter_cons, ih, List.length_cons]
      push_cast
      ring
    · simp [List.foldl_cons, h, ih, List.filter_cons]

/-- The word-overlap base score agrees with the Finset-intersection form,
including the degenerate cases (empty intersection, empty query). -/
theorem base_score_eq (A B : List String) :
    (if (A.dedup.filter (fun w => decide (w ∈ B.dedup))).isEmpty then (0:ℚ)
     else ((A.dedup.filter (fun w => decide (w ∈ B.dedup))).length : ℚ) / (A.dedup.length : ℚ))
    = ((A.toFinset ∩ B.toFinset).card : ℚ) / (A.toFinset.card : ℚ) := by
  have h1 : A.toFinset ∩ B.toFinset
      = (A.dedup.filter (fun w => decide (w ∈ B.dedup))).toFinset := by
    ext x
    simp [List.mem_toFinset, List.mem_filter, List.mem_dedup, Finset.mem_inter]
  have hcard : (A.toFinset ∩ B.toFinset).card
      = (A.dedup.filter (fun w => decide (w ∈ B.dedup))).length := by
    rw [h1, List.toFinset_card_of_nodup (A.nodup_dedup.filter _)]
  have hq : A.toFinset.card = A.dedup.length := List.card_toFinset A
  rw [hcard, hq]
  by_cases h : (A.dedup.filter (fun w => decide (w ∈ B.dedup))).isEmpty
  · rw [if_pos h]
    rw [List.isEmpty_iff] at h
    rw [h]
    simp
  · rw [if_neg h]

/-- The clamped threshold test agrees with the raw threshold test. -/
theorem min_one_threshold (x : ℚ) : ((1/10:ℚ) < min x 1) ↔ ((1/10:ℚ) < x) := by
  constructor
  · intro h
    exact lt_of_lt_of_le h (min_le_left _ _)
  · intro h
    rw [lt_min_iff]
    exact ⟨h, by norm_num⟩

/-- The in-loop score of the code equals the specification-side score. -/
theorem clauseScore_eq_spec (query content : String) :
    clauseScore (pyLower query) (pyLower content) = specClauseScore query content := by
  unfold clauseScore specClauseScore
  rw [foldl_bonus, foldl_bonus, base_score_eq]
  unfold specSharedCount
  ring

/-- The kept-clause list before sorting equals its specification form:
clamp at the end, keep exactly the clauses with score above 0.1. -/
theorem matchedBeforeSort_eq (query : String) (clauses : List Clause) :
    matchedBeforeSort query clauses
      = (clauses.filter
          (fun c => decide ((1/10:ℚ) < min (specClauseScore query c.clause_content) 1))).map
          (fun c => { c with relevance_score := some (min (specClauseScore query c.clause_content) 1) }) := by
  induction clauses with
  | nil => rfl
  | cons c cs ih =>
    unfold matchedBeforeSort at ih ⊢
    simp only [List.filterMap_cons, List.filter_cons]
    rw [clauseScore_eq_spec query c.clause_content]
    by_cases h : (1/10:ℚ) < specClauseScore query c.clause_content
    · rw [if_pos h, if_pos (by rw [decide_eq_true_eq, min_one_threshold]; exact h)]
      simp only [List.map_cons]
      rw [ih]
    · rw [if_neg h, if_neg (by rw [decide_eq_true_eq, min_one_threshold]; exact h)]
      rw [ih]

/-- Stable descending insertion permutes to consing. -/
theorem insDesc_perm {α : Type} (key : α → ℚ) (c : α) (l : List α) :
    List.Perm (insDesc key c l) (c :: l) := by
  induction l with
  | nil => exact List.Perm.refl _
  | cons x xs ih =>
    unfold insDesc
    by_cases h : key x ≤ key c
    · rw [if_pos h]
    · rw [if_neg h]
      exact (ih.cons x).trans (List.Perm.swap c x xs)

/-- The stable descending sort is a permutation of its input. -/
theorem sortDesc_perm {α : Type} (key : α → ℚ) (l : List α) : List.Perm (sortDesc key l) l := by
  induction l with
  | nil => exact List.Perm.refl _
  | cons x xs ih =>
    exact (insDesc_perm key x (sortDesc key xs)).trans (ih.cons x)

/-- Insertion preserves the descending pairwise order. -/
theorem insDesc_pairwise {α : Type} (key : α → ℚ) (c : α) (l : List α)
    (h : l.Pairwise (fun a b => key b ≤ key a)) :
    (insDesc key c l).Pairwise (fun a b => key b ≤ key a) := by
  induction l with
  | nil => simp [insDesc]
  | cons x xs ih =>
    rcases List.pairwise_cons.mp h with ⟨hx, hxs⟩
    unfold insDesc
    by_cases hk : key x ≤ key c
    · rw [if_pos hk]
      refine List.pairwise_cons.mpr ⟨?_, h⟩
      intro y hy
      rcases List.mem_cons.mp hy with rfl | hy2
      · exact hk
      · exact (hx y hy2).trans hk
    · rw [if_neg hk]
      refine List.pairwise_cons.mpr ⟨?_, ih hxs⟩
      intro y hy
      rcases List.mem_cons.mp ((insDesc_perm key c xs).mem_iff.mp hy) with rfl | hy2
      · exact le_of_lt (not_le.mp hk)
      · exact hx y hy2

/-- The sort output is descending in the key. -/
theorem sortDesc_pairwise {α : Type} (key : α → ℚ) (l : List α) :
    (sortDesc key l).Pairwise (fun a b => key b ≤ key a) := by
  induction l with
  | nil => simp [sortDesc]
  | cons x xs ih => exact insDesc_pairwise key x (sortDesc key xs) ih

/-- Filtering at any single key value commutes with insertion: the
inserted element lands before every equal-keyed element. -/
theorem insDesc_filter_key {α : Type} (key : α → ℚ) (r : ℚ) (c : α) (l : List α) :
    (insDesc key c l).filter (fun x => key x == r)
      = if key c == r then c :: l.filter (fun x => key x == r)
        else l.filter (fun x => key x == r) := by
  induction l with
  | nil =>
    by_cases h : key c == r <;> simp [insDesc, List.filter, h]
  | cons x xs ih =>
    unfold insDesc
    by_cases hk : key x ≤ key c
    · rw [if_pos hk]
      simp [List.filter_cons]
    · rw [if_neg hk]
      have hlt : key c < key x := not_le.mp hk
      by_cases hc : key c = r
      · have hx : (key x == r) = false := by
          rw [beq_eq_false_iff_ne]
          rw [← hc]
          exact ne_of_gt hlt
        rw [List.filter_cons, List.filter_cons, hx, ih]
        simp only [hc, beq_self_eq_true, if_true, Bool.false_eq_true, if_false]
      · have hc' : (key c == r) = false := by rw [beq_eq_false_iff_ne]; exact hc
        rw [List.filter_cons, List.filter_cons, ih, hc']
        by_cases hx : key x == r <;> simp [hx]

/-- Ties keep input order: filtering the sorted list at any fixed key
value returns the input-order sublist at that key value. -/
theorem sortDesc_filter_key {α : Type} (key : α → ℚ) (r : ℚ) (l : List α) :
    (sortDesc key l).filter (fun x => key x == r) = l.filter (fun x => key x == r) := by
  induction l with
  | nil => rfl
  | cons x xs ih =>
    show (insDesc key x (sortDesc key xs)).filter _ = _
    rw [insDesc_filter_key, List.filter_cons]
    by_cases hx : key x = r
    · simp only [hx, beq_self_eq_true, if_true, ih]
    · have hx' : (key x == r) = false := by rw [beq_eq_false_iff_ne]; exact hx
      simp only [hx', Bool.false_eq_true, if_false, ih]

/-- Lowering preserves emptiness. -/
theorem pyLower_eq_empty_iff (s : String) : pyLower s = "" ↔ s = "" := by
  constructor
  · intro h
    have hd : s.data.map Char.toLower = [] := congrArg String.data h
    have : s.data = [] := List.map_eq_nil_iff.mp hd
    cases s
    simp at this
    simp [this]
  · intro h
    rw [h]
    rfl

/-- When the age check does not reject, evaluation proceeds to the
post-age steps. -/
theorem evaluate_eq_afterAge (q : QueryEntities) (clauses : List Clause)
    (h : ageRejects q = false) :
    evaluate_coverage_eligibility q clauses = evalAfterAge q clauses := by
  unfold ageRejects at h
  cases hqa : q.age with
  | none => simp [evaluate_coverage_eligibility, hqa]
  | some a =>
    rw [hqa] at h
    simp only at h
    simp [evaluate_coverage_eligibility, hqa, h]

/-- The coverage step never sets waiting-period information. -/
theorem coverageStep_wpi (cond : String) (clauses : List Clause) :
    (coverageStep cond clauses).waiting_period_info = "" := by
  by_cases h : 0 < (scanClauses clauses).1 <;> simp [coverageStep, h]

/-- Properties of the final coverage decision: approval exactly when the
maximum extracted coverage limit is positive, and the approved record
carries that maximum, eligibility, and confidence 0.8. -/
theorem coverageStep_props (cond : String) (clauses : List Clause) :
    ((coverageStep cond clauses).decision = "approved" ↔ 0 < maxCoverageOf clauses)
    ∧ ((coverageStep cond clauses).decision = "approved" →
        (coverageStep cond clauses).eligible = true
          ∧ (coverageStep cond clauses).amount = some (maxCoverageOf clauses)
          ∧ (coverageStep cond clauses).confidence_score = 8/10) := by
  by_cases h : 0 < (scanClauses clauses).1 <;>
    simp [coverageStep, maxCoverageOf, h,
      show ("rejected" : String) ≠ "approved" by decide]

/-- The waiting-period field of the extracted clause info is exactly the
result of the waiting-period pattern search. -/
theorem extract_waiting_eq (s : String) :
    (extract_clause_info s).waiting_period = searchWaiting s.data := by
  unfold extract_clause_info
  dsimp only
  cases h1 : searchWaiting s.data <;> cases h2 : searchCoverage s.data <;>
    cases h3 : searchExclusions s.data <;> simp

/-- The clause type is the label of the last matching family: exclusion
beats coverage-limit beats waiting-period, `general` when none match. -/
theorem extract_type_eq (s : String) :
    (extract_clause_info s).clause_type
      = (if (searchExclusions s.data).isSome then "exclusion"
         else if (searchCoverage s.data).isSome then "coverage_limit"
         else if (searchWaiting s.data).isSome then "waiting_period"
         else "general") := by
  unfold extract_clause_info
  dsimp only
  cases h1 : searchWaiting s.data <;> cases h2 : searchCoverage s.data <;>
    cases h3 : searchExclusions s.data <;> simp

/-- C1: the claim says evaluate_coverage_eligibility returns an Evaluation
and never raises for every QueryEntities record, including a query from
which no condition was extracted. It is false on the code: the entities
dict built for a query with no extractable structure carries
condition = None, and the code's `.get("condition", "").lower()` then
raises AttributeError. This theorem evaluates the code at that input. -/
theorem C1_no_condition_raises :
    evaluate_coverage_eligibility
        (entitiesToDict (fallback_entity_extraction "Please review my claim")) []
      = .error .attributeError
    ∧ (fallback_entity_extraction "Please review my claim").condition = none := by
  exact ⟨rfl, rfl⟩

/-- C2 counterexample: age 0 is present and outside [18, 65], yet with a
clause yielding a positive coverage limit the code approves (Python's
`if age:` treats 0 as falsy and skips the age check), contradicting the
claimed rejection with unset amount. -/
theorem C2_counterexample :
    (evaluate_coverage_eligibility ⟨some 0, .absent, none⟩ [fiveLakhClause]).map
        Evaluation.decision = .ok "approved"
    ∧ ("approved" : String) ≠ "rejected" := by
  exact ⟨rfl, by decide⟩

/-- C4 counterexample: on the test query the fallback extraction returns
policy_duration = "46", not "3" — the duration pattern
`(\d+)[\s-]*(?:month|year|yr)s?[\s-]*(?:old|policy)` already matches the
earlier substring "46-year-old", and `re.search` is leftmost. -/
theorem C4_counterexample :
    fallback_entity_extraction testQuery
      = ⟨some 46, some "male", some "surgery", some "Pune", some "46", none⟩
    ∧ (some "46" : Option String) ≠ some "3" := by
  exact ⟨rfl, by decide⟩

/-- C4 amended: the fallback extraction yields age 46, gender male,
condition "surgery", location Pune, and policy_duration "46" (captured
from "46-year-old", the leftmost match). The evaluation then passes the
waiting-period check — "surgery" contains no body-part keyword, so the
general 3-month period applies and 46 ≥ 3 — and with no coverage-bearing
clauses rejects with the generic no-coverage justification at
confidence 0.3. -/
theorem C4_amended :
    fallback_entity_extraction testQuery
      = ⟨some 46, some "male", some "surgery", some "Pune", some "46", none⟩
    ∧ evaluate_coverage_eligibility
        (entitiesToDict (fallback_entity_extraction testQuery)) []
        = .ok ⟨false, "rejected", none, noCoverageJust, "", [], 3/10⟩
    ∧ requiredWaiting "surgery" = 3 := by
  exact ⟨rfl, rfl, rfl⟩

/-- C5 counterexample: a text containing "3 months waiting" whose
clause_type is "exclusion", not "waiting_period": the code overwrites
clause_type with each later matching family, so exclusion beats
waiting_period, contrary to the claimed priority. -/
theorem C5_counterexample :
    extract_clause_info "3 months waiting exclusions: war"
      = ⟨"exclusion", some 3, none, ["war"], []⟩
    ∧ ("exclusion" : String) ≠ "waiting_period" := by
  exact ⟨by decide, by decide⟩

/-- C7 counterexample: a rejected evaluation (age 17) whose matched
clauses carry a positive maximum coverage limit, refuting "approval
occurs exactly when that maximum coverage limit is greater than 0". -/
theorem C7_counterexample :
    (evaluate_coverage_eligibility ⟨some 17, .absent, none⟩ [fiveLakhClause]).map
        Evaluation.decision = .ok "rejected"
    ∧ 0 < maxCoverageOf [fiveLakhClause] := by
  exact ⟨rfl, by decide⟩

/-- C8 counterexample: on the scenario clause text the extractor returns
coverage_limit = None, not 500000: "500,000 rupees" is not followed by a
magnitude word (lakh/lac/thousand/million) and the text says "maximum
coverage of", never the literal "coverage limit". -/
theorem C8_counterexample :
    (extract_clause_info c8Text).coverage_limit = none
    ∧ (none : Option Nat) ≠ some 500000 := by
  exact ⟨by decide, by decide⟩

/-- C8 amended: on the scenario clause text the extractor yields
waiting_period 12 (via "Waiting period of 12 months") and
coverage_limit = None; the coverage-limit pattern itself does behave as
described when a magnitude word or the "coverage limit" literal is
present, capturing the comma-stripped amount. -/
theorem C8_amended :
    extract_clause_info c8Text = ⟨"waiting_period", some 12, none, [], []⟩
    ∧ (extract_clause_info "coverage limit 500,000").coverage_limit = some 500000
    ∧ (extract_clause_info "maximum coverage of 500,000 rupees").coverage_limit = none := by
  exact ⟨by decide, by decide, by decide⟩

/-- C9 counterexample: with an empty clause list but age 17 the code
rejects with confidence 0.0 (the age path), not the claimed 0.3. -/
theorem C9_counterexample :
    (evaluate_coverage_eligibility ⟨some 17, .absent, none⟩ []).map
        Evaluation.confidence_score = .ok 0
    ∧ (0 : ℚ) ≠ 3/10 := by
  exact ⟨rfl, by norm_num⟩

/-- C6: match_clauses_to_query equals the specification-side matcher
(word-overlap base score with rational division, +0.3 per shared medical
term, +0.2 per shared city, clamp to 1.0 at the end, keep exactly scores
strictly above 0.1); its output is sorted descending by the stored score;
and ties preserve input order (filtering the output at any fixed score
value gives the kept clauses in input order). -/
theorem C6_relevance_matcher (query : String) (clauses : List Clause) :
    match_clauses_to_query query clauses = matchClausesSpec query clauses
    ∧ (match_clauses_to_query query clauses).Pairwise (fun a b => sortKey b ≤ sortKey a)
    ∧ ∀ r : ℚ, (match_clauses_to_query query clauses).filter (fun c => sortKey c == r)
        = (matchedBeforeSort query clauses).filter (fun c => sortKey c == r) := by
  refine ⟨?_, ?_, ?_⟩
  · unfold match_clauses_to_query matchClausesSpec
    rw [matchedBeforeSort_eq]
  · exact sortDesc_pairwise sortKey _
  · intro r
    exact sortDesc_filter_key sortKey r _

/-- C10: every clause record in the matcher's output agrees with a
corresponding input record on every field except relevance_score, which
is set to the computed clamped score; no record not from the input
appears. -/
theorem C10_frame (query : String) (clauses : List Clause) (c : Clause)
    (hc : c ∈ match_clauses_to_query query clauses) :
    ∃ c0 ∈ clauses,
      c.clause_id = c0.clause_id ∧ c.clause_title = c0.clause_title
        ∧ c.clause_content = c0.clause_content
        ∧ c.relevance_score
            = some (min (clauseScore (pyLower query) (pyLower c0.clause_content)) 1) := by
  have hmem : c ∈ matchedBeforeSort query clauses :=
    (sortDesc_perm sortKey (matchedBeforeSort query clauses)).mem_iff.mp hc
  unfold matchedBeforeSort at hmem
  rcases List.mem_filterMap.mp hmem with ⟨c0, hc0, heq⟩
  dsimp only at heq
  by_cases h : (1/10:ℚ) < clauseScore (pyLower query) (pyLower c0.clause_content)
  · rw [if_pos h] at heq
    have heq2 := Option.some.inj heq
    subst heq2
    exact ⟨c0, hc0, rfl, rfl, rfl, rfl⟩
  · rw [if_neg h] at heq
    simp at heq

/-- C10 witness: a concrete query and clause list, with the output record
traced back to its input record. -/
theorem C10_frame_witness :
    ∃ c0 ∈ [(⟨"a", "t", "knee covered", none⟩ : Clause)],
      (⟨"a", "t", "knee covered", some 1⟩ : Clause).clause_id = c0.clause_id
        ∧ (⟨"a", "t", "knee covered", some 1⟩ : Clause).clause_title = c0.clause_title
        ∧ (⟨"a", "t", "knee covered", some 1⟩ : Clause).clause_content = c0.clause_content
        ∧ (⟨"a", "t", "knee covered", some 1⟩ : Clause).relevance_score
            = some (min (clauseScore (pyLower "knee") (pyLower c0.clause_content)) 1) :=
  C10_frame "knee" [⟨"a", "t", "knee covered", none⟩] ⟨"a", "t", "knee covered", some 1⟩
    (by decide)

/-- Every successful evaluation is one of three shapes: the age-rejection
record, the waiting-period-rejection record (with the waiting check
firing), or the coverage-step record (with the age check passing). -/
theorem evaluate_shape (q : QueryEntities) (clauses : List Clause) (e : Evaluation)
    (h : evaluate_coverage_eligibility q clauses = .ok e) :
    (∃ a, q.age = some a ∧ ageOutside a = true
        ∧ e = { emptyEvaluation with justification := ageJustification a })
    ∨ ((∃ m w cond, e = { emptyEvaluation with
            waiting_period_info := waitingInfoText m w cond,
            justification := waitingJustText m w })
        ∧ waitingRejects q = true ∧ ageRejects q = false)
    ∨ ((∃ cond, coverageStep cond clauses = e) ∧ ageRejects q = false) := by
  cases hAR : ageRejects q with
  | true =>
    left
    unfold ageRejects at hAR
    cases hqa : q.age with
    | none =>
      rw [hqa] at hAR
      exact absurd hAR (by simp)
    | some a =>
      rw [hqa] at hAR
      simp only at hAR
      refine ⟨a, rfl, hAR, ?_⟩
      unfold evaluate_coverage_eligibility at h
      rw [hqa] at h
      dsimp only at h
      rw [if_pos hAR] at h
      exact (Except.ok.inj h).symm
  | false =>
    rw [evaluate_eq_afterAge q clauses hAR] at h
    unfold evalAfterAge at h
    cases hcond : q.condition with
    | pynone =>
      rw [hcond] at h
      exact absurd h (by simp [getConditionLower])
    | absent =>
      rw [hcond] at h
      dsimp only [getConditionLower] at h
      right; right
      refine ⟨⟨"", ?_⟩, rfl⟩
      cases hpd : q.policy_duration with
      | none =>
        rw [hpd] at h
        dsimp only [evalWaitingAndCoverage] at h
        exact Except.ok.inj h
      | some d =>
        rw [hpd] at h
        dsimp only [evalWaitingAndCoverage] at h
        have hcnd : ((!d.isEmpty) && (!("" : String).isEmpty)) = false := by
          rw [show ("" : String).isEmpty = true from rfl]
          simp
        rw [hcnd, if_neg Bool.false_ne_true] at h
        exact Except.ok.inj h
    | val s =>
      rw [hcond] at h
      dsimp only [getConditionLower] at h
      cases hpd : q.policy_duration with
      | none =>
        rw [hpd] at h
        dsimp only [evalWaitingAndCoverage] at h
        right; right
        exact ⟨⟨pyLower s, Except.ok.inj h⟩, rfl⟩
      | some d =>
        rw [hpd] at h
        dsimp only [evalWaitingAndCoverage] at h
        cases hbool : ((!d.isEmpty) && (!(pyLower s).isEmpty)) with
        | false =>
          rw [hbool, if_neg Bool.false_ne_true] at h
          right; right
          exact ⟨⟨pyLower s, Except.ok.inj h⟩, rfl⟩
        | true =>
          rw [hbool, if_pos rfl] at h
          cases hint : pyInt d with
          | none =>
            rw [hint] at h
            exact absurd h (by simp)
          | some m =>
            rw [hint] at h
            dsimp only at h
            by_cases hlt : m < ((requiredWaiting (pyLower s) : Nat) : Int)
            · rw [if_pos hlt] at h
              right; left
              refine ⟨⟨m, requiredWaiting (pyLower s), pyLower s, (Except.ok.inj h).symm⟩, ?_, rfl⟩
              unfold waitingRejects
              rw [hcond, hpd]
              dsimp only
              rw [hbool, if_pos rfl, hint]
              exact decide_eq_true hlt
            · rw [if_neg hlt] at h
              right; right
              exact ⟨⟨pyLower s, Except.ok.inj h⟩, rfl⟩

/-- C2 amended: if age is present, nonzero, and outside [18, 65], the
evaluation rejects immediately: not eligible, decision "rejected", no
amount, empty waiting info, confidence 0, and the justification is the
age string, which names the violated bounds ("18-65 years" occurs in
it). The nonzero proviso is forced by the code's `if age:` truthiness
test (see the counterexample at age 0). -/
theorem C2_age_outside_rejects (q : QueryEntities) (clauses : List Clause) (a : Int)
    (hage : q.age = some a) (h0 : a ≠ 0) (hout : a < 18 ∨ 65 < a) :
    evaluate_coverage_eligibility q clauses
      = .ok { emptyEvaluation with justification := ageJustification a }
    ∧ hasSubS "18-65 years" (ageJustification a) = true := by
  have hA : ageOutside a = true := by
    unfold ageOutside
    rcases hout with h | h <;> simp [h0, h]
  constructor
  · unfold evaluate_coverage_eligibility
    rw [hage]
    dsimp only
    rw [if_pos hA]
  · show hasSubL ("18-65 years").data (ageJustification a).data = true
    have hdata : (ageJustification a).data
        = ("Age ").data
          ++ ((toString a).data ++ (" is outside the eligible range (18-65 years)").data) := by
      unfold ageJustification
      rw [String.data_append, String.data_append, List.append_assoc]
    rw [hdata]
    apply hasSubL_append_right
    apply hasSubL_append_right
    decide

/-- C2 witness: ages 17 and 66 both reject with the age justification. -/
theorem C2_age_outside_rejects_witness :
    (evaluate_coverage_eligibility ⟨some 17, .absent, none⟩ []
        = .ok { emptyEvaluation with justification := ageJustification 17 }
      ∧ hasSubS "18-65 years" (ageJustification 17) = true)
    ∧ (evaluate_coverage_eligibility ⟨some 66, .absent, none⟩ []
        = .ok { emptyEvaluation with justification := ageJustification 66 }
      ∧ hasSubS "18-65 years" (ageJustification 66) = true) :=
  ⟨C2_age_outside_rejects ⟨some 17, .absent, none⟩ [] 17 rfl (by decide) (Or.inl (by decide)),
   C2_age_outside_rejects ⟨some 66, .absent, none⟩ [] 66 rfl (by decide) (Or.inr (by decide))⟩

/-- C3: with a present nonempty condition, a present policy duration that
parses to m months, and a non-rejecting age, the evaluation rejects at
the waiting-period step exactly when m is below the required period
computed from the condition (12 for the body-part surgery group, else 24
for the pre-existing group, else 3), populating both waiting_period_info
and justification with required and actual months; otherwise it passes
on to the coverage step, whose record carries no waiting info. -/
theorem C3_waiting_period (q : QueryEntities) (clauses : List Clause) (s d : String) (m : Int)
    (hcond : q.condition = .val s) (hs : s ≠ "")
    (hpd : q.policy_duration = some d) (hm : pyInt d = some m)
    (hage : ageRejects q = false) :
    (m < (requiredWaiting (pyLower s) : Int) →
        evaluate_coverage_eligibility q clauses
          = .ok { emptyEvaluation with
                    waiting_period_info :=
                      waitingInfoText m (requiredWaiting (pyLower s)) (pyLower s),
                    justification := waitingJustText m (requiredWaiting (pyLower s)) })
    ∧ ((requiredWaiting (pyLower s) : Int) ≤ m →
        evaluate_coverage_eligibility q clauses = .ok (coverageStep (pyLower s) clauses)
          ∧ (coverageStep (pyLower s) clauses).waiting_period_info = "") := by
  have hd : d.isEmpty = false := by
    cases hde : d.isEmpty
    · rfl
    · exfalso
      rw [(String.isEmpty_iff d).mp hde] at hm
      simp [pyInt] at hm
  have hc : (pyLower s).isEmpty = false := by
    cases hce : (pyLower s).isEmpty
    · rfl
    · exact absurd ((pyLower_eq_empty_iff s).mp ((String.isEmpty_iff _).mp hce)) hs
  have hkey : evaluate_coverage_eligibility q clauses
      = evalWaitingAndCoverage (pyLower s) q.policy_duration clauses := by
    rw [evaluate_eq_afterAge q clauses hage]
    unfold evalAfterAge
    rw [hcond]
    rfl
  rw [hkey, hpd]
  unfold evalWaitingAndCoverage
  dsimp only
  rw [hd, hc]
  simp only [Bool.not_false, Bool.and_self, if_true, hm]
  constructor
  · intro hlt
    rw [if_pos hlt]
  · intro hge
    rw [if_neg (not_lt.mpr hge)]
    exact ⟨rfl, coverageStep_wpi _ _⟩

/-- C3 witness: condition "knee surgery" with duration "6" rejects citing
12 versus 6; condition "diabetes" with duration "30" passes the waiting
check and proceeds to the coverage step. -/
theorem C3_waiting_period_witness :
    (evaluate_coverage_eligibility ⟨none, .val "knee surgery", some "6"⟩ []
        = .ok { emptyEvaluation with
                  waiting_period_info := waitingInfoText 6 12 "knee surgery",
                  justification := waitingJustText 6 12 })
    ∧ (evaluate_coverage_eligibility ⟨none, .val "diabetes", some "30"⟩ []
        = .ok (coverageStep "diabetes" [])
      ∧ (coverageStep "diabetes" []).waiting_period_info = "") := by
  constructor
  · have h := C3_waiting_period ⟨none, .val "knee surgery", some "6"⟩ [] "knee surgery" "6" 6
      rfl (by decide) rfl (by decide) rfl
    exact h.1 (by decide)
  · have h := C3_waiting_period ⟨none, .val "diabetes", some "30"⟩ [] "diabetes" "30" 30
      rfl (by decide) rfl (by decide) rfl
    exact h.2 (by decide)

/-- C7 amended: decision "approved" always implies eligible, a set amount
equal to the maximum coverage limit extracted from the matched clauses,
and confidence 0.8; and when neither the age check nor the waiting-period
check rejects first, approval occurs exactly when that maximum exceeds 0
(the counterexample shows the unconditional "exactly when" is false). -/
theorem C7_approval_invariant (q : QueryEntities) (clauses : List Clause) (e : Evaluation)
    (h : evaluate_coverage_eligibility q clauses = .ok e) :
    (e.decision = "approved" →
        e.eligible = true ∧ e.amount = some (maxCoverageOf clauses)
          ∧ e.confidence_score = 8/10)
    ∧ (ageRejects q = false → waitingRejects q = false →
        (e.decision = "approved" ↔ 0 < maxCoverageOf clauses)) := by
  rcases evaluate_shape q clauses e h with ⟨a, hqa, hA, he⟩ | ⟨⟨m, w, cond, he⟩, hW, hAF⟩ | ⟨⟨cond, hcs⟩, hAF⟩
  · constructor
    · intro habs
      rw [he] at habs
      have h2 : ("rejected" : String) = "approved" := habs
      exact absurd h2 (by decide)
    · intro hf _
      unfold ageRejects at hf
      rw [hqa] at hf
      simp only at hf
      rw [hA] at hf
      exact absurd hf (by decide)
  · constructor
    · intro habs
      rw [he] at habs
      have h2 : ("rejected" : String) = "approved" := habs
      exact absurd h2 (by decide)
    · intro _ hwf
      rw [hW] at hwf
      exact absurd hwf (by decide)
  · rcases coverageStep_props cond clauses with ⟨hiff, himp⟩
    rw [hcs] at hiff himp
    exact ⟨himp, fun _ _ => hiff⟩

/-- C7 witness: a concrete approved evaluation carrying the maximum
extracted coverage limit. -/
theorem C7_approval_invariant_witness :
    ((⟨true, "approved", some 5,
        "Coverage approved for  with maximum amount of 5", "", [], 8/10⟩ : Evaluation).decision
          = "approved" →
        (⟨true, "approved", some 5,
          "Coverage approved for  with maximum amount of 5", "", [], 8/10⟩ : Evaluation).eligible
            = true
          ∧ (⟨true, "approved", some 5,
              "Coverage approved for  with maximum amount of 5", "", [], 8/10⟩ : Evaluation).amount
              = some (maxCoverageOf [fiveLakhClause])
          ∧ (⟨true, "approved", some 5,
              "Coverage approved for  with maximum amount of 5", "", [],
              8/10⟩ : Evaluation).confidence_score = 8/10)
    ∧ (ageRejects ⟨none, .absent, none⟩ = false →
        waitingRejects ⟨none, .absent, none⟩ = false →
        ((⟨true, "approved", some 5,
            "Coverage approved for  with maximum amount of 5", "", [],
            8/10⟩ : Evaluation).decision = "approved"
          ↔ 0 < maxCoverageOf [fiveLakhClause])) :=
  C7_approval_invariant ⟨none, .absent, none⟩ [fiveLakhClause]
    ⟨true, "approved", some 5, "Coverage approved for  with maximum amount of 5", "", [], 8/10⟩
    rfl

/-- C9 amended: with an empty matched-clause list, whenever neither the
age check nor the waiting-period check rejects first (and the evaluation
completes), the result is the generic rejection: not eligible, decision
"rejected", no amount, the no-applicable-coverage justification, and
confidence 0.3 (the counterexample shows the unconditional claim is
false: an age rejection yields confidence 0). -/
theorem C9_empty_clauses (q : QueryEntities) (e : Evaluation)
    (h : evaluate_coverage_eligibility q [] = .ok e)
    (hage : ageRejects q = false) (hwait : waitingRejects q = false) :
    e = ⟨false, "rejected", none, noCoverageJust, "", [], 3/10⟩ := by
  rcases evaluate_shape q [] e h with ⟨a, hqa, hA, he⟩ | ⟨_, hW, _⟩ | ⟨⟨cond, hcs⟩, _⟩
  · exfalso
    unfold ageRejects at hage
    rw [hqa] at hage
    simp only at hage
    rw [hA] at hage
    exact absurd hage (by decide)
  · rw [hW] at hwait
    exact absurd hwait (by decide)
  · rw [← hcs]
    rfl

/-- C9 witness: a query with no fields at all, over no clauses. -/
theorem C9_empty_clauses_witness :
    evaluate_coverage_eligibility ⟨none, .absent, none⟩ [] 
        = .ok ⟨false, "rejected", none, noCoverageJust, "", [], 3/10⟩
    ∧ ageRejects ⟨none, .absent, none⟩ = false
    ∧ (⟨false, "rejected", none, noCoverageJust, "", [], 3/10⟩ : Evaluation)
        = ⟨false, "rejected", none, noCoverageJust, "", [], 3/10⟩ :=
  ⟨rfl, rfl, C9_empty_clauses ⟨none, .absent, none⟩ _ rfl rfl rfl⟩

/-- The waiting-period pattern matches at the start of a digit run
followed by " months waiting" (written out as characters), capturing the
whole run. -/
theorem matchWait1At_digits_run (ds : List Char) (t : String)
    (hne : ds ≠ []) (hdig : ∀ c ∈ ds, c.isDigit = true) :
    matchWait1At (ds ++ [' ', 'm', 'o', 'n', 't', 'h', 's', ' ',
        'w', 'a', 'i', 't', 'i', 'n', 'g'] ++ t.data) = some (digitsToNat ds) := by
  have hie : ds.isEmpty = false := by
    cases ds
    · exact absurd rfl hne
    · rfl
  have h1 : List.takeWhile Char.isDigit (ds ++ (' ' :: 'm' :: 'o' :: 'n' :: 't' :: 'h' :: 's'
        :: ' ' :: 'w' :: 'a' :: 'i' :: 't' :: 'i' :: 'n' :: 'g' :: t.data)) = ds :=
    takeWhile_append_run _ ds ' ' _ hdig (by decide)
  have h2 : List.dropWhile Char.isDigit (ds ++ (' ' :: 'm' :: 'o' :: 'n' :: 't' :: 'h' :: 's'
        :: ' ' :: 'w' :: 'a' :: 'i' :: 't' :: 'i' :: 'n' :: 'g' :: t.data))
      = ' ' :: 'm' :: 'o' :: 'n' :: 't' :: 'h' :: 's' :: ' ' :: 'w' :: 'a' :: 'i' :: 't'
        :: 'i' :: 'n' :: 'g' :: t.data :=
    dropWhile_append_run _ ds ' ' _ hdig (by decide)
  have h3 : List.dropWhile isPyWS (' ' :: 'm' :: 'o' :: 'n' :: 't' :: 'h' :: 's' :: ' '
        :: 'w' :: 'a' :: 'i' :: 't' :: 'i' :: 'n' :: 'g' :: t.data)
      = 'm' :: 'o' :: 'n' :: 't' :: 'h' :: 's' :: ' ' :: 'w' :: 'a' :: 'i' :: 't' :: 'i'
        :: 'n' :: 'g' :: t.data :=
    dropWhile_append_run isPyWS [' '] 'm' _ (by decide) (by decide)
  have h4 : stripLitCI ['m', 'o', 'n', 't', 'h'] ('m' :: 'o' :: 'n' :: 't' :: 'h' :: 's'
        :: ' ' :: 'w' :: 'a' :: 'i' :: 't' :: 'i' :: 'n' :: 'g' :: t.data)
      = some ('s' :: ' ' :: 'w' :: 'a' :: 'i' :: 't' :: 'i' :: 'n' :: 'g' :: t.data) :=
    stripLitCI_self_append ['m', 'o', 'n', 't', 'h']
      ('s' :: ' ' :: 'w' :: 'a' :: 'i' :: 't' :: 'i' :: 'n' :: 'g' :: t.data) (by decide)
  have h5 : firstAlt [['m', 'o', 'n', 't', 'h'], ['y', 'e', 'a', 'r']]
        ('m' :: 'o' :: 'n' :: 't' :: 'h' :: 's' :: ' ' :: 'w' :: 'a' :: 'i' :: 't' :: 'i'
          :: 'n' :: 'g' :: t.data)
      = some ('s' :: ' ' :: 'w' :: 'a' :: 'i' :: 't' :: 'i' :: 'n' :: 'g' :: t.data) := by
    unfold firstAlt
    rw [h4]
  have h6 : optCharCI 's' ('s' :: ' ' :: 'w' :: 'a' :: 'i' :: 't' :: 'i' :: 'n' :: 'g'
        :: t.data) = ' ' :: 'w' :: 'a' :: 'i' :: 't' :: 'i' :: 'n' :: 'g' :: t.data := rfl
  have h7 : List.dropWhile isPyWS (' ' :: 'w' :: 'a' :: 'i' :: 't' :: 'i' :: 'n' :: 'g'
        :: t.data) = 'w' :: 'a' :: 'i' :: 't' :: 'i' :: 'n' :: 'g' :: t.data :=
    dropWhile_append_run isPyWS [' '] 'w' _ (by decide) (by decide)
  have hstrip : stripLitCI ['w', 'a', 'i', 't', 'i', 'n', 'g']
        ('w' :: 'a' :: 'i' :: 't' :: 'i' :: 'n' :: 'g' :: t.data) = some t.data :=
    stripLitCI_self_append ['w', 'a', 'i', 't', 'i', 'n', 'g'] t.data (by decide)
  have h8 : isLitCI ['w', 'a', 'i', 't', 'i', 'n', 'g']
        ('w' :: 'a' :: 'i' :: 't' :: 'i' :: 'n' :: 'g' :: t.data) = true := by
    unfold isLitCI
    rw [hstrip]
    rfl
  rw [List.append_assoc]
  unfold matchWait1At
  dsimp only
  simp only [List.cons_append, List.nil_append]
  rw [h1, h2, hie, h3, h5]
  dsimp only
  rw [h6, h7, h8]
  simp only [Bool.false_eq_true, if_false, if_true]

/-- C5 amended: the captured waiting period is the digit run of the
leftmost match — for any text beginning with a digit run followed by
" months waiting", the run value is returned (the first pattern of the
waiting family matches at position 0). And clause_type is the label of
the LAST matching family — exclusion beats coverage_limit beats
waiting_period (the reverse of the claimed priority) — remaining
"general" when none match. -/
theorem C5_extract_priority :
    (∀ (ds : List Char) (t : String), ds ≠ [] → (∀ c ∈ ds, c.isDigit = true) →
      (extract_clause_info ⟨ds ++ " months waiting".data ++ t.data⟩).waiting_period
        = some (digitsToNat ds))
    ∧ ∀ s : String, (extract_clause_info s).clause_type
        = (if (searchExclusions s.data).isSome then "exclusion"
           else if (searchCoverage s.data).isSome then "coverage_limit"
           else if (searchWaiting s.data).isSome then "waiting_period"
           else "general") := by
  constructor
  · intro ds t hne hdig
    rw [extract_waiting_eq]
    show searchWaiting (ds ++ " months waiting".data ++ t.data) = some (digitsToNat ds)
    rcases ds with _ | ⟨d, ds'⟩
    · exact absurd rfl hne
    · have hm : matchWait1At (d :: (ds' ++ [' ', 'm', 'o', 'n', 't', 'h', 's', ' ',
            'w', 'a', 'i', 't', 'i', 'n', 'g'] ++ t.data)) = some (digitsToNat (d :: ds')) :=
        matchWait1At_digits_run (d :: ds') t hne hdig
      show searchWaiting (d :: (ds' ++ [' ', 'm', 'o', 'n', 't', 'h', 's', ' ',
          'w', 'a', 'i', 't', 'i', 'n', 'g'] ++ t.data)) = some (digitsToNat (d :: ds'))
      unfold searchWaiting
      have hscan : scanL matchWait1At (d :: (ds' ++ [' ', 'm', 'o', 'n', 't', 'h', 's', ' ',
          'w', 'a', 'i', 't', 'i', 'n', 'g'] ++ t.data)) = some (digitsToNat (d :: ds')) := by
        unfold scanL
        rw [hm]
      rw [hscan]
  · exact extract_type_eq

/-- C5 witness: the run "6" before " months waiting" is captured as 6,
and a coverage-only text gets clause_type "coverage_limit". -/
theorem C5_extract_priority_witness :
    (extract_clause_info ⟨['6'] ++ " months waiting".data ++ " and more".data⟩).waiting_period
      = some (digitsToNat ['6'])
    ∧ (extract_clause_info "5 lakh").clause_type
        = (if (searchExclusions ("5 lakh").data).isSome then "exclusion"
           else if (searchCoverage ("5 lakh").data).isSome then "coverage_limit"
           else if (searchWaiting ("5 lakh").data).isSome then "waiting_period"
           else "general") :=
  ⟨C5_extract_priority.1 ['6'] " and more" (by decide) (by decide),
   C5_extract_priority.2 "5 lakh"⟩
